import Mathlib

/-!
# Verification of the 0x45-cli client against its specification

A shallow embedding, in Lean, of the request-construction, validation,
pagination and configuration logic of the `0x45-cli` Go repository
(`watzon/0x45-cli`).  The repository contains several variants of the
same client:

* the root package (`main.go`, `client.go`) with `newListCommand`,
  `newUploadCommand`, `doRequest`, …;
* a second root-package variant (the file embedding `handleUpload`,
  `newConfigCommand` with an `unset` subcommand, and a query-parameter
  based `Upload`);
* `internal/client` (`Client.Upload`, `Client.RequestAPIKey`, …);
* `pkg/api/paste69` (an `X-API-Key` based client);
* `cmd/0x45` (a root command with a `PersistentPreRunE` API-key check).

Go library behaviour the code leans on (`time.ParseDuration`,
`path/filepath.Base`/`Ext`, `net/url.Values`, and the layered lookup of
the `viper` configuration store) is embedded alongside, following the
libraries' documented semantics, because the repository's behaviour on
the claimed inputs is decided by it.
-/

namespace Ox45

/-! ## Model of `net/url.Values`

A `url.Values` is a map from keys to value lists; the code uses
`Set` (replace) and `Add` (append) and never adds one key twice, so an
association list with replace/append semantics models it.  `lookup`
is the observation: the value a key is carried with, `none` when the
key is omitted from the encoded query. -/

abbrev Values := List (String × String)

/-- Go `url.Values.Set`: replace any previous value of the key. -/
def valuesSet (q : Values) (k v : String) : Values :=
  (k, v) :: q.filter (fun p => p.1 ≠ k)

/-- Go `url.Values.Add`: append a value for the key. -/
def valuesAdd (q : Values) (k v : String) : Values :=
  q ++ [(k, v)]

/-- The value the encoded query carries for a key (`none` = omitted). -/
def valuesGet (q : Values) (k : String) : Option String :=
  match q with
  | [] => none
  | (k2, v) :: rest => if k2 = k then some v else valuesGet rest k

theorem valuesGet_set_self (q : Values) (k v : String) :
    valuesGet (valuesSet q k v) k = some v := by
  simp [valuesSet, valuesGet]

theorem valuesGet_filter_ne (q : Values) (k k2 : String) (h : k2 ≠ k) :
    valuesGet (q.filter (fun p => !decide (p.1 = k))) k2 = valuesGet q k2 := by
  have hkk : ¬ k = k2 := fun hh => h hh.symm
  induction q with
  | nil => rfl
  | cons p rest ih =>
    rw [List.filter_cons]
    by_cases hp : p.1 = k
    · simp [hp, valuesGet, hkk, ih]
    · have hc : (!decide (p.1 = k)) = true := by simp [hp]
      simp only [hc, if_true, valuesGet, ih]

theorem valuesGet_set_ne (q : Values) (k v k2 : String) (h : k2 ≠ k) :
    valuesGet (valuesSet q k v) k2 = valuesGet q k2 := by
  have hne : ¬ (k = k2) := fun hh => h hh.symm
  simp [valuesSet, valuesGet, hne, valuesGet_filter_ne q k k2 h]

/-! ## Pagination (`newListCommand`, both root variants)

Both list subcommands print
`"Page %d of %d"` with the page count computed inline as
`(resp.Data.Total + resp.Data.Limit - 1) / resp.Data.Limit`
(Go integer division; `main.go` lines 444-452, and identically in the
second root variant).  Totals and limits are non-negative here, so `Nat`
division matches Go's `int` division. -/

/-- The page count the list commands compute and display:
`(total + limit - 1) / limit` in Go integer arithmetic. -/
def listPageCount (total limit : Nat) : Nat :=
  (total + limit - 1) / limit

end Ox45

open Ox45

/-- C1, counterexample: with `total = 0` and `limit = 10` the computed page
count is `(0 + 10 - 1) / 10 = 0`, not `1` as the claim states for
`total = 0`. -/
theorem listPageCount_zero_total_ne_one : ¬ (listPageCount 0 10 = 1) := by
  decide

/-- C1, amended: for every `limit ≥ 1` the page count the list commands
compute, `(total + limit - 1) / limit`, equals `⌈total / limit⌉` — also at
`total = 0`, where the ceiling (and the computed count) is `0`, not `1`.
(The commands return before displaying it when the item list is empty.) -/
theorem listPageCount_eq_ceil (total limit : Nat) (h : 1 ≤ limit) :
    listPageCount total limit = ⌈(total : ℚ) / (limit : ℚ)⌉₊ := by
  have hl0 : (0 : ℚ) < (limit : ℚ) := by exact_mod_cast h
  apply le_antisymm
  · -- `(total + limit - 1) / limit ≤ ⌈total / limit⌉`
    show (total + limit - 1) / limit ≤ ⌈(total : ℚ) / (limit : ℚ)⌉₊
    rw [Nat.div_le_iff_le_mul_add_pred h]
    have h1 : (total : ℚ) / (limit : ℚ) ≤ (⌈(total : ℚ) / (limit : ℚ)⌉₊ : ℚ) :=
      Nat.le_ceil _
    have h2 : (total : ℚ) ≤ (⌈(total : ℚ) / (limit : ℚ)⌉₊ : ℚ) * (limit : ℚ) :=
      (div_le_iff₀ hl0).mp h1
    have h3 : total ≤ ⌈(total : ℚ) / (limit : ℚ)⌉₊ * limit := by exact_mod_cast h2
    have h3c : ⌈(total : ℚ) / (limit : ℚ)⌉₊ * limit =
        limit * ⌈(total : ℚ) / (limit : ℚ)⌉₊ := Nat.mul_comm _ _
    omega
  · -- `⌈total / limit⌉ ≤ (total + limit - 1) / limit`
    rw [Nat.ceil_le]
    have h4 : total ≤ (total + limit - 1) / limit * limit := by
      have hdm := Nat.div_add_mod (total + limit - 1) limit
      have hlt : (total + limit - 1) % limit < limit := Nat.mod_lt _ h
      have hc : (total + limit - 1) / limit * limit =
          limit * ((total + limit - 1) / limit) := Nat.mul_comm _ _
      omega
    have h5 : (total : ℚ) ≤ (((total + limit - 1) / limit : Nat) : ℚ) * (limit : ℚ) := by
      exact_mod_cast h4
    rw [div_le_iff₀ hl0]
    exact h5

/-- C1, witness for the amended theorem at `total = 15`, `limit = 10`. -/
theorem listPageCount_eq_ceil_witness :
    1 ≤ 10 ∧ listPageCount 15 10 = ⌈(15 : ℚ) / (10 : ℚ)⌉₊ := by
  refine ⟨by decide, ?_⟩
  have h := listPageCount_eq_ceil 15 10 (by decide)
  simpa using h

namespace Ox45

/-! ## Model of Go's `time.ParseDuration`

The upload command validates `--expires` with `time.ParseDuration`
(`handleUpload` / `newUploadCommand`).  Go durations are a signed
nanosecond count in an `int64`; the accepted syntax is
`[-+]?([0-9]*(\.[0-9]*)?[a-z]+)+` with units `ns`, `us`, `µs`, `μs`,
`ms`, `s`, `m`, `h` — there is no day unit.  The embedding follows the
Go source of `ParseDuration`; `none` is a parse error.  (Go computes a
fractional part through `float64`; here the fraction is exact integer
arithmetic, which agrees on every claim-relevant input — no claim uses
fractional durations.) -/

/-- Go `unitMap`: nanoseconds per unit suffix. -/
def unitMap (u : String) : Option Int :=
  if u = "ns" then some 1
  else if u = "us" then some 1000
  else if u = "µs" then some 1000
  else if u = "μs" then some 1000
  else if u = "ms" then some 1000000
  else if u = "s" then some 1000000000
  else if u = "m" then some 60000000000
  else if u = "h" then some 3600000000000
  else none

/-- The bound `1 << 63`, Go's overflow bound during accumulation. -/
def twoPow63 : Int := 9223372036854775808

/-- Go `leadingInt`: consume leading digits into a value; `none` on
overflow (the Go code errors when the value passes `1<<63/10` or
`1<<63`). -/
def leadingInt : Int → List Char → Option (Int × List Char)
  | x, [] => some (x, [])
  | x, c :: rest =>
    if c < '0' ∨ '9' < c then some (x, c :: rest)
    else if x > 922337203685477580 then none
    else
      let x2 := x * 10 + ((c.toNat : Int) - 48)
      if x2 > twoPow63 then none
      else leadingInt x2 rest

/-- Go `leadingFraction`: consume digits after the decimal point,
returning the numerator and the power-of-ten scale; extra digits past
the overflow bound are discarded, as in Go. -/
def leadingFraction : Int → Int → Bool → List Char → (Int × Int × List Char)
  | x, scale, _, [] => (x, scale, [])
  | x, scale, overflow, c :: rest =>
    if c < '0' ∨ '9' < c then (x, scale, c :: rest)
    else if overflow then leadingFraction x scale overflow rest
    else if x > 922337203685477580 then leadingFraction x scale true rest
    else
      let y := x * 10 + ((c.toNat : Int) - 48)
      if y > twoPow63 then leadingFraction x scale true rest
      else leadingFraction y (scale * 10) overflow rest

/-- One unit suffix: the longest run of characters that are neither
digits nor `.` (Go scans until it sees a digit or a dot). -/
def takeUnit (s : List Char) : List Char :=
  s.takeWhile (fun c => ¬ (c = '.' ∨ ('0' ≤ c ∧ c ≤ '9')))

/-- The main loop of Go `ParseDuration`: each iteration parses one
`[0-9]*(\.[0-9]*)?unit` group and adds it to the running total `d`.
`fuel` only bounds the recursion; each Go iteration consumes at least
the unit suffix, so `fuel = length + 1` never runs out. -/
def parseDurationLoop : Nat → List Char → Int → Option Int
  | 0, _, _ => none
  | _, [], d => some d
  | fuel + 1, c :: s0, d =>
    -- the next character must be `[0-9.]`
    if ¬ (c = '.' ∨ ('0' ≤ c ∧ c ≤ '9')) then none
    else
      match leadingInt 0 (c :: s0) with
      | none => none
      | some (v, s1) =>
        let pre := s1.length ≠ (c :: s0).length
        let fracRes : Int × Int × Bool × List Char :=
          match s1 with
          | '.' :: s2 =>
            let (f, scale, s3) := leadingFraction 0 1 false s2
            (f, scale, s3.length ≠ s2.length, s3)
          | _ => (0, 1, false, s1)
        let f := fracRes.1
        let scale := fracRes.2.1
        let post := fracRes.2.2.1
        let s3 := fracRes.2.2.2
        if ¬ pre ∧ ¬ post then none
        else
          let u := takeUnit s3
          let rest := s3.drop u.length
          if u = [] then none
          else
            match unitMap ⟨u⟩ with
            | none => none
            | some unit =>
              if v > twoPow63 / unit then none
              else
                let v2 := v * unit
                let v3 := if f > 0 then v2 + f * unit / scale else v2
                if v3 > twoPow63 then none
                else
                  let d2 := d + v3
                  if d2 > twoPow63 then none
                  else parseDurationLoop fuel rest d2

/-- Go `time.ParseDuration`, returning the duration in nanoseconds
(`none` = error). -/
def goParseDuration (str : String) : Option Int :=
  let s0 := str.data
  let signed : Bool × List Char :=
    match s0 with
    | '-' :: r => (true, r)
    | '+' :: r => (false, r)
    | r => (false, r)
  let neg := signed.1
  let s1 := signed.2
  if s1 = ['0'] then some 0
  else if s1 = [] then none
  else
    match parseDurationLoop (s1.length + 1) s1 0 with
    | none => none
    | some d =>
      if neg then some (-d)
      else if d > twoPow63 - 1 then none
      else some d

end Ox45

/-- Sanity: `"24h"` parses to 24 hours of nanoseconds, `"1h30m"` to ninety
minutes, and `"7d"` — the repository's own default expiry — is rejected
because Go durations have no day unit. -/
theorem goParseDuration_examples :
    goParseDuration "24h" = some 86400000000000 ∧
    goParseDuration "1h30m" = some 5400000000000 ∧
    goParseDuration "7d" = none ∧
    goParseDuration "129d" = none := by
  decide

namespace Ox45

/-! ## Model of `path/filepath` (Unix rules, as compiled in this repo) -/

/-- Go `filepath.Ext`: the suffix beginning at the final dot in the final
path element; empty when there is none.  (Go scans backwards, stopping at
a path separator.) -/
def filepathExtRev : List Char → List Char → String
  | [], _ => ""
  | c :: rest, acc =>
    if c = '/' then ""
    else if c = '.' then ⟨c :: acc⟩
    else filepathExtRev rest (c :: acc)

/-- Go `filepath.Ext` on a path string. -/
def filepathExt (p : String) : String :=
  filepathExtRev p.data.reverse []

/-- Go `filepath.Base`: strip trailing separators, take the last element;
`"."` for the empty path, `"/"` when everything was separators. -/
def filepathBase (p : String) : String :=
  if p = "" then "."
  else
    let stripped := (p.data.reverse.dropWhile (fun c => c = '/')).reverse
    let base := (stripped.reverse.takeWhile (fun c => ¬ c = '/')).reverse
    if base = [] then "/" else ⟨base⟩

/-! ## The upload command (second root variant: `handleUpload` /
`newUploadCommand` with `--filename`/`--ext` overrides)

The command reads the `expires`, `private`, `filename` and `ext` flags,
fail-fast validates (private requires a key; `expires` must parse and
stay under the key-dependent cap), then builds the query parameters and
issues exactly one POST of the content to the configured `api_url`.
`validateAPIKey` errors exactly when the resolved `api_key` is empty. -/

/-- The errors the upload command can return before any request. -/
inductive UploadErr where
  | privateNeedsKey                    -- `private uploads require an API key`
  | invalidDuration                    -- `invalid expiry duration`
  | durationTooLong (maxDays : Int)    -- `maximum expiry ... is %d days`
  deriving DecidableEq, Repr

/-- The fail-fast validation prefix of the upload command, in source
order: the `private` check, then duration parse, then the cap check
(`730` days with a key, `128` without; `maxDuration` in nanoseconds). -/
def uploadValidate (apiKey expires : String) (priv : Bool) : Option UploadErr :=
  if priv ∧ apiKey = "" then some .privateNeedsKey
  else if expires ≠ "" then
    match goParseDuration expires with
    | none => some .invalidDuration
    | some duration =>
      let hasAPIKey := apiKey ≠ ""
      let maxDays : Int := if hasAPIKey then 730 else 128
      let maxDuration := maxDays * 24 * 3600000000000
      if duration > maxDuration then some (.durationTooLong maxDays) else none
  else none

/-- The query parameters the upload command builds (source order:
`expires`, `private`, then the per-source filename/ext defaults, then
the `--filename`/`--ext` overrides).  `fileArg` is the optional file
argument; `none` means content is read from stdin. -/
def buildUploadQuery (expires : String) (priv : Bool)
    (customFilename customExt : String) (fileArg : Option String) : Values :=
  let query : Values := []
  let query := if expires ≠ "" then valuesSet query "expires" expires else query
  let query := if priv then valuesSet query "private" "true" else query
  let query :=
    match fileArg with
    | some path =>
      let query :=
        if customFilename = "" then valuesSet query "filename" (filepathBase path)
        else query
      if customExt = "" ∧ filepathExt path ≠ "" then
        valuesSet query "ext" ((filepathExt path).drop 1)
      else query
    | none =>
      let query :=
        if customFilename = "" then valuesSet query "filename" "paste.txt" else query
      if customExt = "" then valuesSet query "ext" "txt" else query
  let query := if customFilename ≠ "" then valuesSet query "filename" customFilename else query
  if customExt ≠ "" then valuesSet query "ext" customExt else query

/-- An observable network effect of a command: one HTTP request. -/
inductive NetEvent where
  | httpRequest (method : String) (query : Values)
  deriving DecidableEq, Repr

/-- The upload command run: validation first; only when it passes is the
content posted (one request, carrying the built query).  The returned
list is the trace of network effects, in order. -/
def uploadRun (apiKey expires : String) (priv : Bool)
    (customFilename customExt : String) (fileArg : Option String) :
    Except UploadErr Values × List NetEvent :=
  match uploadValidate apiKey expires priv with
  | some e => (.error e, [])
  | none =>
    let query := buildUploadQuery expires priv customFilename customExt fileArg
    (.ok query, [.httpRequest "POST" query])

end Ox45

/-- C2: uploading with `private = true` and no configured API key fails
with the configuration error (`private uploads require an API key`)
and the trace of network effects is empty — no HTTP request is issued,
whatever the other flags and the content source are. -/
theorem upload_private_without_key_no_request
    (expires customFilename customExt : String) (fileArg : Option String) :
    uploadRun "" expires true customFilename customExt fileArg =
      (.error .privateNeedsKey, []) := by
  simp [uploadRun, uploadValidate]

/-- C3: the upload command rejects `expires = "129d"` whether or not an
API key is configured — Go's `time.ParseDuration` has no `"d"` unit, so
the value fails with the parse error (`invalid expiry duration`), never
reaching the 128/730-day cap check; with a key it is *not* accepted.
The caps are live only for durations written in parseable units: with
hours, `3073h` (over 128 days) is rejected without a key and accepted
with one. -/
theorem upload_129d_rejected_even_with_key :
    uploadRun "some-key" "129d" false "" "" none =
      (.error .invalidDuration, []) ∧
    uploadRun "" "129d" false "" "" none =
      (.error .invalidDuration, []) ∧
    uploadValidate "" "3073h" false = some (.durationTooLong 128) ∧
    uploadValidate "some-key" "3073h" false = none :=
  ⟨rfl, rfl, rfl, rfl⟩

namespace Ox45

/-! ## Substring observation

`occursIn needle hay` decides whether `needle` occurs contiguously in
`hay`; it is how "the error message contains the status line / the
body" is stated. -/

/-- Whether `needle` starts `hay`. -/
def leadsWith : List Char → List Char → Bool
  | [], _ => true
  | _ :: _, [] => false
  | a :: as, b :: bs => a = b && leadsWith as bs

/-- Whether `needle` occurs contiguously somewhere in `hay`. -/
def occursIn : List Char → List Char → Bool
  | n, [] => leadsWith n []
  | n, c :: t => leadsWith n (c :: t) || occursIn n t

/-- String-level containment. -/
def strOccurs (needle hay : String) : Bool :=
  occursIn needle.data hay.data

theorem leadsWith_append_self (n t : List Char) : leadsWith n (n ++ t) = true := by
  induction n with
  | nil => rfl
  | cons a as ih => simp [leadsWith, ih]

theorem occursIn_of_leadsWith (n h : List Char) (hl : leadsWith n h = true) :
    occursIn n h = true := by
  cases h with
  | nil => exact hl
  | cons c t => simp [occursIn, hl]

theorem occursIn_cons_of (n : List Char) (c : Char) (h : List Char)
    (hh : occursIn n h = true) : occursIn n (c :: h) = true := by
  simp [occursIn, hh]

theorem occursIn_append_self (s n t : List Char) :
    occursIn n (s ++ n ++ t) = true := by
  induction s with
  | nil => exact occursIn_of_leadsWith n (n ++ t) (leadsWith_append_self n t)
  | cons c s2 ih => exact occursIn_cons_of n c (s2 ++ n ++ t) ih

theorem strOccurs_append_middle (a n b : String) :
    strOccurs n (a ++ n ++ b) = true := by
  show occursIn n.data (a ++ n ++ b).data = true
  rw [String.data_append, String.data_append]
  exact occursIn_append_self a.data n.data b.data

/-! ## The root-package API client (`client.go`)

Every operation but `Upload` routes through the shared helper
`doRequest(method, path, body, query, result)`: it builds one request
against `BaseUrl + path`, attaches `Authorization: Bearer <key>` exactly
when `APIKey != ""`, and on any status other than 200 returns the error
`"request failed: <status line>: <body>"`.  `Upload` repeats the same
header and status logic inline against `BaseUrl` itself. -/

/-- The client record (`client.go` `Client`). -/
structure Client where
  baseUrl : String
  apiKey : String
  deriving Repr

/-- A built HTTP request, as observable before it is sent. -/
structure GoRequest where
  method : String
  url : String
  query : Values
  headers : Values
  deriving Repr

/-- The shared header guard:
`if c.APIKey != "" { req.Header.Set("Authorization", "Bearer "+c.APIKey) }` -/
def setAuthHeader (apiKey : String) (h : Values) : Values :=
  if apiKey ≠ "" then valuesSet h "Authorization" ("Bearer " ++ apiKey) else h

/-- The request `doRequest` builds. -/
def doRequestReq (c : Client) (method path : String) (query : Values) : GoRequest :=
  { method := method
    url := c.baseUrl ++ path
    query := query
    headers := setAuthHeader c.apiKey [] }

/-- The single status-handling rule of `doRequest`:
`"request failed: %s: %s"` of the status line and the full body. -/
def doRequestStatusMsg (statusLine body : String) : String :=
  "request failed: " ++ statusLine ++ ": " ++ body

/-- The response handling of `doRequest`: an error exactly on non-200. -/
def doRequestHandle (status : Nat) (statusLine body : String) : Option String :=
  if status ≠ 200 then some (doRequestStatusMsg statusLine body) else none

/-- The request `Client.Upload` builds (raw body POST to the base URL, same
conditional bearer header as `doRequest`). -/
def uploadReq (c : Client) (query : Values) : GoRequest :=
  { method := "POST"
    url := c.baseUrl
    query := query
    headers := setAuthHeader c.apiKey [] }

/-- Record `ShortenOptions` of `client.go`. -/
structure ShortenOptions where
  url : String
  expires : String
  title : String
  deriving Repr

/-- The JSON body `Shorten` builds: `url` always, `expires` and `title`
only when non-empty. -/
def shortenReqBody (opts : ShortenOptions) : Values :=
  let b : Values := [("url", opts.url)]
  let b := if opts.expires ≠ "" then valuesSet b "expires" opts.expires else b
  if opts.title ≠ "" then valuesSet b "title" opts.title else b

/-- Record `ListOptions` of `client.go` (Go `int` fields). -/
structure ListOptions where
  page : Int
  limit : Int
  sort : String
  deriving Repr

/-- The query `ListPastes`/`ListUrls` build: `page` and `limit` only when
positive, `sort` only when non-empty (`query.Add` with `strconv.Itoa`). -/
def listQueryParams (opts : ListOptions) : Values :=
  let q : Values := []
  let q := if opts.page > 0 then valuesAdd q "page" (toString opts.page) else q
  let q := if opts.limit > 0 then valuesAdd q "limit" (toString opts.limit) else q
  if opts.sort ≠ "" then valuesAdd q "sort" opts.sort else q

/-- Operation `ListPastes`: `GET /pastes` through `doRequest`. -/
def listPastesReq (c : Client) (opts : ListOptions) : GoRequest :=
  doRequestReq c "GET" "/pastes" (listQueryParams opts)

/-- Operation `ListUrls`: `GET /urls` through `doRequest`. -/
def listUrlsReq (c : Client) (opts : ListOptions) : GoRequest :=
  doRequestReq c "GET" "/urls" (listQueryParams opts)

/-- Operation `Shorten`: `POST /url` through `doRequest`. -/
def shortenReq (c : Client) : GoRequest :=
  doRequestReq c "POST" "/url" []

/-- Operation `Delete`: `DELETE /<deleteId>` through `doRequest`. -/
def deleteReq (c : Client) (deleteId : String) : GoRequest :=
  doRequestReq c "DELETE" ("/" ++ deleteId) []

/-- Operation `RequestAPIKey`: `POST /api-key` through `doRequest` — the shared
helper, so the conditional bearer header is attached here too. -/
def requestAPIKeyReq (c : Client) : GoRequest :=
  doRequestReq c "POST" "/api-key" []

/-- Command `newKeyCommand` constructs the client for the key request with an
empty key: `client.New(viper.GetString("api_url"), "")`. -/
def keyCommandClient (apiUrl : String) : Client :=
  { baseUrl := apiUrl, apiKey := "" }

/-! ## The `internal/client` variant

Each operation builds its own request.  All of them attach the bearer
header under the same `APIKey != ""` guard — except `RequestAPIKey`,
which sets only `Content-Type: application/json` and never any
credential. -/

namespace Internal

/-- Headers of `Upload`: multipart content type, then the conditional
bearer (the multipart boundary is run-time random, so the content type
is a parameter). -/
def uploadHeaders (apiKey contentType : String) : Values :=
  setAuthHeader apiKey (valuesSet [] "Content-Type" contentType)

/-- The multipart fields `Upload` writes besides the file: `expires`
when non-empty, `private` when true. -/
def uploadFormFields (expires : String) (priv : Bool) : Values :=
  let fs : Values := []
  let fs := if expires ≠ "" then valuesAdd fs "expires" expires else fs
  if priv then valuesAdd fs "private" "true" else fs

/-- Headers of `Shorten`. -/
def shortenHeaders (apiKey : String) : Values :=
  setAuthHeader apiKey (valuesSet [] "Content-Type" "application/json")

/-- Headers of `List`. -/
def listHeaders (apiKey : String) : Values :=
  setAuthHeader apiKey []

/-- Query of `List`: `page`/`limit` when positive, `sort` when non-empty. -/
def listQueryParams (page limit : Int) (sort : String) : Values :=
  let q : Values := []
  let q := if page > 0 then valuesAdd q "page" (toString page) else q
  let q := if limit > 0 then valuesAdd q "limit" (toString limit) else q
  if sort ≠ "" then valuesAdd q "sort" sort else q

/-- Headers of `Delete`. -/
def deleteHeaders (apiKey : String) : Values :=
  setAuthHeader apiKey []

/-- Headers of `RequestAPIKey`: only the JSON content type — no
authorization header on any path. -/
def requestAPIKeyHeaders : Values :=
  valuesSet [] "Content-Type" "application/json"

/-- Headers of `GetURLStats`. -/
def getURLStatsHeaders (apiKey : String) : Values :=
  setAuthHeader apiKey []

/-- Headers of `UpdateURLExpiration`. -/
def updateURLExpirationHeaders (apiKey : String) : Values :=
  setAuthHeader apiKey (valuesSet [] "Content-Type" "application/json")

/-- Per-operation status errors, e.g. `"upload failed: %s: %s"` — each
prefixes its own verb but always includes the status line and body. -/
def opStatusMsg (verb statusLine body : String) : String :=
  verb ++ ": " ++ statusLine ++ ": " ++ body

end Internal

/-! ## The `pkg/api/paste69` variant

Every operation sets `X-API-Key` to the configured key unconditionally
(`req.Header.Set("X-API-Key", c.APIKey)`, also when the key is `""`)
and none sets an `Authorization` header; a non-200 status becomes
`"unexpected status code: %d"` — the body is not read. -/

namespace Paste69

/-- The paste69 client record. -/
structure Client where
  baseURL : String
  apiKey : String
  deriving Repr

/-- Operation `Upload`: POST of the file to `/upload` with `private`/`expires`
query parameters, octet-stream headers, `X-API-Key`, `X-Filename`. -/
def uploadReq (c : Client) (filePath : String) (priv : Bool)
    (expires contentLength : String) : GoRequest :=
  let params : Values := []
  let params := if priv then valuesSet params "private" "true" else params
  let params := if expires ≠ "" then valuesSet params "expires" expires else params
  let h := valuesSet [] "Content-Type" "application/octet-stream"
  let h := valuesSet h "Content-Length" contentLength
  let h := valuesSet h "X-API-Key" c.apiKey
  let h := valuesSet h "X-Filename" (filepathBase filePath)
  { method := "POST", url := c.baseURL ++ "/upload", query := params, headers := h }

/-- Operation `Shorten`: POST of the target URL (plain text) to `/shorten`. -/
def shortenReq (c : Client) (priv : Bool) (expires : String) : GoRequest :=
  let params : Values := []
  let params := if priv then valuesSet params "private" "true" else params
  let params := if expires ≠ "" then valuesSet params "expires" expires else params
  let h := valuesSet [] "Content-Type" "text/plain"
  let h := valuesSet h "X-API-Key" c.apiKey
  { method := "POST", url := c.baseURL ++ "/shorten", query := params, headers := h }

/-- Operation `Delete`: DELETE `/delete/<id>`. -/
def deleteReq (c : Client) (id : String) : GoRequest :=
  { method := "DELETE"
    url := c.baseURL ++ "/delete/" ++ id
    query := []
    headers := valuesSet [] "X-API-Key" c.apiKey }

/-- Operation `ListPastes`: GET `/pastes?page=..&per_page=..` (both always set). -/
def listPastesReq (c : Client) (page perPage : Int) : GoRequest :=
  let params := valuesSet [] "page" (toString page)
  let params := valuesSet params "per_page" (toString perPage)
  { method := "GET"
    url := c.baseURL ++ "/pastes"
    query := params
    headers := valuesSet [] "X-API-Key" c.apiKey }

/-- Operation `ListURLs`: GET `/urls?page=..&per_page=..`. -/
def listURLsReq (c : Client) (page perPage : Int) : GoRequest :=
  let params := valuesSet [] "page" (toString page)
  let params := valuesSet params "per_page" (toString perPage)
  { method := "GET"
    url := c.baseURL ++ "/urls"
    query := params
    headers := valuesSet [] "X-API-Key" c.apiKey }

/-- The status handling every paste69 operation repeats:
`"unexpected status code: %d"` on non-200 — the response body is not
part of the message (it is never read on this path). -/
def statusMsg (status : Nat) (_body : String) : Option String :=
  if status ≠ 200 then some ("unexpected status code: " ++ toString status)
  else none

end Paste69

/-! ### Lookup helpers -/

theorem valuesGet_ite (c : Prop) [Decidable c] (A B : Values) (k : String) :
    valuesGet (if c then A else B) k =
      if c then valuesGet A k else valuesGet B k := by
  split <;> rfl

theorem valuesGet_append (q r : Values) (k : String) :
    valuesGet (q ++ r) k =
      match valuesGet q k with
      | some v => some v
      | none => valuesGet r k := by
  induction q with
  | nil => rfl
  | cons p rest ih =>
    rcases p with ⟨k2, v⟩
    by_cases hp : k2 = k
    · subst hp; simp [valuesGet]
    · simp only [List.cons_append, valuesGet]
      simp [hp, ih]

/-- The `filename` parameter the upload command ends up sending:
the `--filename` override when given, otherwise the source default. -/
theorem buildUploadQuery_filename (e : String) (p : Bool) (cf cx : String)
    (fa : Option String) :
    valuesGet (buildUploadQuery e p cf cx fa) "filename" =
      (if cf = "" then
        match fa with
        | none => some "paste.txt"
        | some path => some (filepathBase path)
       else some cf) := by
  rcases fa with _ | path <;>
    by_cases he : e = "" <;> by_cases hp : p <;> by_cases hcf : cf = "" <;>
      by_cases hcx : cx = "" <;>
        simp [buildUploadQuery, he, hp, hcf, hcx, valuesGet_ite,
          valuesGet_set_self, valuesGet_set_ne, valuesGet]

/-- The `ext` parameter the upload command ends up sending. -/
theorem buildUploadQuery_ext (e : String) (p : Bool) (cf cx : String)
    (fa : Option String) :
    valuesGet (buildUploadQuery e p cf cx fa) "ext" =
      (if cx = "" then
        match fa with
        | none => some "txt"
        | some path =>
          if filepathExt path = "" then none
          else some ((filepathExt path).drop 1)
       else some cx) := by
  rcases fa with _ | path <;>
    by_cases he : e = "" <;> by_cases hp : p <;> by_cases hcf : cf = "" <;>
      by_cases hcx : cx = "" <;>
        simp [buildUploadQuery, he, hp, hcf, hcx, valuesGet_ite,
          valuesGet_set_self, valuesGet_set_ne, valuesGet]

/-- The `expires` parameter the upload command sends: omitted exactly
when the flag is empty. -/
theorem buildUploadQuery_expires (e : String) (p : Bool) (cf cx : String)
    (fa : Option String) :
    valuesGet (buildUploadQuery e p cf cx fa) "expires" =
      (if e = "" then none else some e) := by
  rcases fa with _ | path <;>
    by_cases he : e = "" <;> by_cases hp : p <;> by_cases hcf : cf = "" <;>
      by_cases hcx : cx = "" <;>
        simp [buildUploadQuery, he, hp, hcf, hcx, valuesGet_ite,
          valuesGet_set_self, valuesGet_set_ne, valuesGet]

/-- The `private` parameter the upload command sends: omitted exactly
when the flag is false. -/
theorem buildUploadQuery_private (e : String) (p : Bool) (cf cx : String)
    (fa : Option String) :
    valuesGet (buildUploadQuery e p cf cx fa) "private" =
      (if p then some "true" else none) := by
  rcases fa with _ | path <;>
    by_cases he : e = "" <;> by_cases hp : p <;> by_cases hcf : cf = "" <;>
      by_cases hcx : cx = "" <;>
        simp [buildUploadQuery, he, hp, hcf, hcx, valuesGet_ite,
          valuesGet_set_self, valuesGet_set_ne, valuesGet]

end Ox45

/-- C4, counterexample: in the root client, `RequestAPIKey` goes through
the shared `doRequest` helper, so with a non-empty key configured the
key-request *does* carry `Authorization: Bearer <key>` — the claimed
"never attaches credentials" fails for this variant. -/
theorem rootRequestAPIKey_attaches_bearer :
    valuesGet (requestAPIKeyReq ⟨"https://0x45.st", "secret"⟩).headers
      "Authorization" = some "Bearer secret" := by
  decide

/-- C4, amended: every operation of the root client (all through
`doRequest`, and `Upload` inline) and of the `internal/client` variant
attaches `Authorization: Bearer <key>` exactly when the configured key
is non-empty; the `internal/client` `RequestAPIKey` alone never attaches
it, while the root `RequestAPIKey` shares `doRequest` and so attaches it
under the same non-empty condition — the key-request *command*, however,
constructs that client with an empty key, so no credential is sent in
practice. -/
theorem bearer_header_exactly_when_key (key base ct method path : String)
    (query : Values) :
    (valuesGet (doRequestReq ⟨base, key⟩ method path query).headers "Authorization" =
      if key = "" then none else some ("Bearer " ++ key)) ∧
    (valuesGet (uploadReq ⟨base, key⟩ query).headers "Authorization" =
      if key = "" then none else some ("Bearer " ++ key)) ∧
    (valuesGet (Internal.uploadHeaders key ct) "Authorization" =
      if key = "" then none else some ("Bearer " ++ key)) ∧
    (valuesGet (Internal.shortenHeaders key) "Authorization" =
      if key = "" then none else some ("Bearer " ++ key)) ∧
    (valuesGet (Internal.listHeaders key) "Authorization" =
      if key = "" then none else some ("Bearer " ++ key)) ∧
    (valuesGet (Internal.deleteHeaders key) "Authorization" =
      if key = "" then none else some ("Bearer " ++ key)) ∧
    (valuesGet (Internal.getURLStatsHeaders key) "Authorization" =
      if key = "" then none else some ("Bearer " ++ key)) ∧
    (valuesGet (Internal.updateURLExpirationHeaders key) "Authorization" =
      if key = "" then none else some ("Bearer " ++ key)) ∧
    (valuesGet Internal.requestAPIKeyHeaders "Authorization" = none) ∧
    (valuesGet (requestAPIKeyReq ⟨base, key⟩).headers "Authorization" =
      if key = "" then none else some ("Bearer " ++ key)) ∧
    (valuesGet (requestAPIKeyReq (keyCommandClient base)).headers "Authorization" =
      none) := by
  by_cases hk : key = "" <;>
    simp [doRequestReq, uploadReq, requestAPIKeyReq, keyCommandClient,
      setAuthHeader, Internal.uploadHeaders, Internal.shortenHeaders,
      Internal.listHeaders, Internal.deleteHeaders,
      Internal.getURLStatsHeaders, Internal.updateURLExpirationHeaders,
      Internal.requestAPIKeyHeaders, hk,
      valuesGet_set_self, valuesGet_set_ne, valuesGet]

/-- C5: optional fields are omitted, not sent empty: the shorten body
carries `expires`/`title` exactly when non-empty (and always `url`);
both list-query builders carry `page`/`limit` exactly when positive and
`sort` exactly when non-empty; the upload query carries `expires`
exactly when non-empty and `private` exactly when true; the internal
upload form writes `expires`/`private` under the same guards; and an
empty `--filename`/`--ext` override adds nothing (the value sent is the
per-source default, never the empty override). -/
theorem optional_fields_omitted (opts : ShortenOptions) (lopts : ListOptions)
    (page limit : Int) (sort e cf cx : String) (p : Bool) (fa : Option String) :
    (valuesGet (shortenReqBody opts) "url" = some opts.url) ∧
    (valuesGet (shortenReqBody opts) "expires" =
      if opts.expires = "" then none else some opts.expires) ∧
    (valuesGet (shortenReqBody opts) "title" =
      if opts.title = "" then none else some opts.title) ∧
    (valuesGet (listQueryParams lopts) "page" =
      if lopts.page > 0 then some (toString lopts.page) else none) ∧
    (valuesGet (listQueryParams lopts) "limit" =
      if lopts.limit > 0 then some (toString lopts.limit) else none) ∧
    (valuesGet (listQueryParams lopts) "sort" =
      if lopts.sort = "" then none else some lopts.sort) ∧
    (valuesGet (Internal.listQueryParams page limit sort) "page" =
      if page > 0 then some (toString page) else none) ∧
    (valuesGet (Internal.listQueryParams page limit sort) "limit" =
      if limit > 0 then some (toString limit) else none) ∧
    (valuesGet (Internal.listQueryParams page limit sort) "sort" =
      if sort = "" then none else some sort) ∧
    (valuesGet (buildUploadQuery e p cf cx fa) "expires" =
      if e = "" then none else some e) ∧
    (valuesGet (buildUploadQuery e p cf cx fa) "private" =
      if p then some "true" else none) ∧
    (valuesGet (Internal.uploadFormFields e p) "expires" =
      if e = "" then none else some e) ∧
    (valuesGet (Internal.uploadFormFields e p) "private" =
      if p then some "true" else none) ∧
    (valuesGet (buildUploadQuery e p cf cx fa) "filename" =
      (if cf = "" then
        match fa with
        | none => some "paste.txt"
        | some path => some (filepathBase path)
       else some cf)) ∧
    (valuesGet (buildUploadQuery e p cf cx fa) "ext" =
      (if cx = "" then
        match fa with
        | none => some "txt"
        | some path =>
          if filepathExt path = "" then none
          else some ((filepathExt path).drop 1)
       else some cx)) := by
  refine ⟨?_, ?_, ?_, ?_, ?_, ?_, ?_, ?_, ?_,
    buildUploadQuery_expires e p cf cx fa, buildUploadQuery_private e p cf cx fa,
    ?_, ?_, buildUploadQuery_filename e p cf cx fa, buildUploadQuery_ext e p cf cx fa⟩
  · by_cases he : opts.expires = "" <;> by_cases ht : opts.title = "" <;>
      simp [shortenReqBody, he, ht, valuesGet_set_self, valuesGet_set_ne, valuesGet]
  · by_cases he : opts.expires = "" <;> by_cases ht : opts.title = "" <;>
      simp [shortenReqBody, he, ht, valuesGet_set_self, valuesGet_set_ne, valuesGet]
  · by_cases he : opts.expires = "" <;> by_cases ht : opts.title = "" <;>
      simp [shortenReqBody, he, ht, valuesGet_set_self, valuesGet_set_ne, valuesGet]
  · by_cases hp : lopts.page > 0 <;> by_cases hl : lopts.limit > 0 <;>
      by_cases hs : lopts.sort = "" <;>
      simp [listQueryParams, valuesAdd, hp, hl, hs, valuesGet_ite,
        valuesGet_append, valuesGet]
  · by_cases hp : lopts.page > 0 <;> by_cases hl : lopts.limit > 0 <;>
      by_cases hs : lopts.sort = "" <;>
      simp [listQueryParams, valuesAdd, hp, hl, hs, valuesGet_ite,
        valuesGet_append, valuesGet]
  · by_cases hp : lopts.page > 0 <;> by_cases hl : lopts.limit > 0 <;>
      by_cases hs : lopts.sort = "" <;>
      simp [listQueryParams, valuesAdd, hp, hl, hs, valuesGet_ite,
        valuesGet_append, valuesGet]
  · by_cases hp : page > 0 <;> by_cases hl : limit > 0 <;>
      by_cases hs : sort = "" <;>
      simp [Internal.listQueryParams, valuesAdd, hp, hl, hs, valuesGet_ite,
        valuesGet_append, valuesGet]
  · by_cases hp : page > 0 <;> by_cases hl : limit > 0 <;>
      by_cases hs : sort = "" <;>
      simp [Internal.listQueryParams, valuesAdd, hp, hl, hs, valuesGet_ite,
        valuesGet_append, valuesGet]
  · by_cases hp : page > 0 <;> by_cases hl : limit > 0 <;>
      by_cases hs : sort = "" <;>
      simp [Internal.listQueryParams, valuesAdd, hp, hl, hs, valuesGet_ite,
        valuesGet_append, valuesGet]
  · by_cases he : e = "" <;> by_cases hp : p <;>
      simp [Internal.uploadFormFields, valuesAdd, he, hp, valuesGet_ite,
        valuesGet_append, valuesGet]
  · by_cases he : e = "" <;> by_cases hp : p <;>
      simp [Internal.uploadFormFields, valuesAdd, he, hp, valuesGet_ite,
        valuesGet_append, valuesGet]

/-- C8: every paste69 operation sets `X-API-Key` to the configured key
unconditionally — also when the key is the empty string — and none of
them ever sets an `Authorization` header. -/
theorem paste69_xapikey_never_bearer (base key fp expires cl id : String)
    (priv : Bool) (page perPage : Int) :
    (valuesGet (Paste69.uploadReq ⟨base, key⟩ fp priv expires cl).headers
        "X-API-Key" = some key) ∧
    (valuesGet (Paste69.uploadReq ⟨base, key⟩ fp priv expires cl).headers
        "Authorization" = none) ∧
    (valuesGet (Paste69.shortenReq ⟨base, key⟩ priv expires).headers
        "X-API-Key" = some key) ∧
    (valuesGet (Paste69.shortenReq ⟨base, key⟩ priv expires).headers
        "Authorization" = none) ∧
    (valuesGet (Paste69.deleteReq ⟨base, key⟩ id).headers "X-API-Key" = some key) ∧
    (valuesGet (Paste69.deleteReq ⟨base, key⟩ id).headers "Authorization" = none) ∧
    (valuesGet (Paste69.listPastesReq ⟨base, key⟩ page perPage).headers
        "X-API-Key" = some key) ∧
    (valuesGet (Paste69.listPastesReq ⟨base, key⟩ page perPage).headers
        "Authorization" = none) ∧
    (valuesGet (Paste69.listURLsReq ⟨base, key⟩ page perPage).headers
        "X-API-Key" = some key) ∧
    (valuesGet (Paste69.listURLsReq ⟨base, key⟩ page perPage).headers
        "Authorization" = none) := by
  refine ⟨?_, ?_, ?_, ?_, ?_, ?_, ?_, ?_, ?_, ?_⟩ <;>
    simp [Paste69.uploadReq, Paste69.shortenReq, Paste69.deleteReq,
      Paste69.listPastesReq, Paste69.listURLsReq,
      valuesGet_set_self, valuesGet_set_ne, valuesGet, valuesSet]

/-- C9: with no `--filename`/`--ext` override, the upload command sends
`filename=paste.txt` and `ext=txt` when reading standard input, and with
a file argument it sends the file's base name as `filename` and — when
the file has an extension — the extension without its leading dot as
`ext` (no `ext` parameter for an extensionless file). -/
theorem upload_filename_ext_defaults (e : String) (p : Bool) :
    (valuesGet (buildUploadQuery e p "" "" none) "filename" = some "paste.txt") ∧
    (valuesGet (buildUploadQuery e p "" "" none) "ext" = some "txt") ∧
    ∀ path : String,
      (valuesGet (buildUploadQuery e p "" "" (some path)) "filename" =
        some (filepathBase path)) ∧
      (valuesGet (buildUploadQuery e p "" "" (some path)) "ext" =
        if filepathExt path = "" then none
        else some ((filepathExt path).drop 1)) := by
  refine ⟨?_, ?_, fun path => ⟨?_, ?_⟩⟩
  · simpa using buildUploadQuery_filename e p "" "" none
  · simpa using buildUploadQuery_ext e p "" "" none
  · simpa using buildUploadQuery_filename e p "" "" (some path)
  · simpa using buildUploadQuery_ext e p "" "" (some path)

/-- Sanity checks of the filepath embedding on concrete paths. -/
theorem filepath_examples :
    filepathBase "dir/photo.png" = "photo.png" ∧
    filepathExt "dir/photo.png" = ".png" ∧
    filepathBase "notes" = "notes" ∧
    filepathExt "notes" = "" ∧
    filepathExt "dir.v2/notes" = "" := by
  decide

/-- C6, counterexample: a paste69 operation answering 401 with body
`"unauthorized"` yields the error `"unexpected status code: 401"` — the
response body is not part of the message, so the claimed uniform
status-line-plus-body error fails for this variant. -/
theorem paste69_error_omits_body :
    Paste69.statusMsg 401 "unauthorized" = some "unexpected status code: 401" ∧
    strOccurs "unauthorized" "unexpected status code: 401" = false := by
  decide

/-- C6, amended: on any status other than 200, the root client's shared
`doRequest` (and `Upload`, which repeats it) returns
`"request failed: <status line>: <body>"` — one rule for every
operation, containing both the status line and the full body; the
`internal/client` operations do the same with per-operation message
verbs; the paste69 variant instead reports only
`"unexpected status code: <code>"`, which contains the status code but
not the body.  A 401 therefore surfaces as an error containing the
status code in every variant. -/
theorem nonsuccess_status_errors (status : Nat) (statusLine body verb : String)
    (h : status ≠ 200) :
    (doRequestHandle status statusLine body =
      some (doRequestStatusMsg statusLine body)) ∧
    (strOccurs statusLine (doRequestStatusMsg statusLine body) = true) ∧
    (strOccurs body (doRequestStatusMsg statusLine body) = true) ∧
    (strOccurs statusLine (Internal.opStatusMsg verb statusLine body) = true) ∧
    (strOccurs body (Internal.opStatusMsg verb statusLine body) = true) ∧
    (Paste69.statusMsg status body =
      some ("unexpected status code: " ++ toString status)) ∧
    (strOccurs (toString status)
      ("unexpected status code: " ++ toString status) = true) := by
  refine ⟨by simp [doRequestHandle, h], ?_, ?_, ?_, ?_,
    by simp [Paste69.statusMsg, h], ?_⟩
  · have := strOccurs_append_middle "request failed: " statusLine (": " ++ body)
    simpa [doRequestStatusMsg, String.append_assoc] using this
  · have := strOccurs_append_middle
      ("request failed: " ++ statusLine ++ ": ") body ""
    simpa [doRequestStatusMsg, String.append_assoc] using this
  · have := strOccurs_append_middle (verb ++ ": ") statusLine (": " ++ body)
    simpa [Internal.opStatusMsg, String.append_assoc] using this
  · have := strOccurs_append_middle (verb ++ ": " ++ statusLine ++ ": ") body ""
    simpa [Internal.opStatusMsg, String.append_assoc] using this
  · have := strOccurs_append_middle "unexpected status code: " (toString status) ""
    simpa [String.append_assoc] using this

/-- C6, witness for the amended theorem: a 401 with body
`"unauthorized"`. -/
theorem nonsuccess_status_errors_witness :
    (doRequestHandle 401 "401 Unauthorized" "unauthorized" =
      some (doRequestStatusMsg "401 Unauthorized" "unauthorized")) ∧
    (strOccurs "unauthorized" (doRequestStatusMsg "401 Unauthorized" "unauthorized")
      = true) ∧
    (Paste69.statusMsg 401 "unauthorized" =
      some ("unexpected status code: " ++ toString 401)) := by
  have h := nonsuccess_status_errors 401 "401 Unauthorized" "unauthorized"
    "upload failed" (by decide)
  exact ⟨h.1, h.2.2.1, h.2.2.2.2.2.1⟩

namespace Ox45

/-! ## The configuration store (`viper`) and the `config` command
(second root variant, with `unset`)

viper resolves a key through layers: the `Set()` override first, then
the configuration read from the file, then the defaults (`initConfig`
sets only `api_url` in this variant).  Crucially, a `nil` stored by
`Set(key, nil)` — which is how the `unset` subcommand "removes" a key —
is indistinguishable from "no override" during lookup (`find` only
returns an override value when it is non-nil), so lookup falls through
to the file layer.  `WriteConfig` persists `AllSettings()`: every key of
any layer whose resolved value is non-nil. -/

namespace Viper

/-- Association-list lookup for the override layer, whose entries may
hold `nil` (`none`). -/
def alistGet : List (String × Option String) → String → Option (Option String)
  | [], _ => none
  | (k2, v) :: rest, k => if k2 = k then some v else alistGet rest k

/-- The layered store of one process invocation. -/
structure State where
  override : List (String × Option String)
  config : List (String × String)
  defaults : List (String × String)

/-- Lookup `viper.Get`/`find`: override when non-nil, else file, else default. -/
def find (st : State) (k : String) : Option String :=
  match alistGet st.override k with
  | some (some v) => some v
  | _ =>
    match valuesGet st.config k with
    | some v => some v
    | none => valuesGet st.defaults k

/-- Predicate `viper.IsSet`. -/
def isSet (st : State) (k : String) : Bool :=
  (find st k).isSome

/-- Mutation `viper.Set(key, value)`: store in the override layer. -/
def set (st : State) (k v : String) : State :=
  { st with override := (k, some v) :: st.override.filter (fun p => p.1 ≠ k) }

/-- Mutation `viper.Set(key, nil)` — the `unset` subcommand's removal attempt. -/
def setNil (st : State) (k : String) : State :=
  { st with override := (k, none) :: st.override.filter (fun p => p.1 ≠ k) }

/-- Enumeration `viper.AllKeys`: the keys of every layer. -/
def allKeys (st : State) : List String :=
  st.override.map (fun p => p.1) ++ st.config.map (fun p => p.1) ++
    st.defaults.map (fun p => p.1)

/-- Enumeration `viper.AllSettings`, what `WriteConfig` persists: each known key with
its resolved value, skipping keys that resolve to nil. -/
def allSettings (st : State) : List (String × String) :=
  (allKeys st).filterMap (fun k2 => (find st k2).map (fun v => (k2, v)))

theorem valuesGet_filterMapKeys (st : State) (L : List String) (k : String) :
    valuesGet (L.filterMap (fun k2 => (find st k2).map (fun v => (k2, v)))) k =
      if k ∈ L then find st k else none := by
  induction L with
  | nil => simp [valuesGet]
  | cons a L ih =>
    by_cases ha : a = k
    · subst ha
      cases hf : find st a with
      | some v => simp [List.filterMap_cons, hf, valuesGet]
      | none => simp [List.filterMap_cons, hf, ih]
    · have hne : k ≠ a := fun hh => ha hh.symm
      cases hf : find st a with
      | some v => simp [List.filterMap_cons, hf, valuesGet, ha, hne, ih]
      | none => simp [List.filterMap_cons, hf, ha, hne, ih]

theorem valuesGet_allSettings (st : State) (k : String) :
    valuesGet (allSettings st) k = if k ∈ allKeys st then find st k else none :=
  valuesGet_filterMapKeys st (allKeys st) k

end Viper

/-- The store a fresh invocation of the CLI starts from: no overrides,
the parsed config file, and the variant's single default. -/
def initState (file : List (String × String)) : Viper.State :=
  { override := [], config := file, defaults := [("api_url", "https://0x45.st")] }

/-- Subcommand `config set <key> <value>`: `viper.Set` then `WriteConfig` — the new
file contents. -/
def configSetCmd (file : List (String × String)) (k v : String) :
    List (String × String) :=
  Viper.allSettings (Viper.set (initState file) k v)

/-- Subcommand `config get <key>`: the resolved value, `none` meaning the command
prints `Config key '<key>' not found` (and, being a `Run` handler,
still exits 0). -/
def configGetCmd (file : List (String × String)) (k : String) : Option String :=
  Viper.find (initState file) k

/-- Subcommand `config unset <key>`: when `IsSet`, `viper.Set(key, nil)` then
`WriteConfig`; the flag is whether the `✓ Removed config key` success
message was printed, paired with the resulting file contents. -/
def configUnsetCmd (file : List (String × String)) (k : String) :
    Bool × List (String × String) :=
  let st := initState file
  if Viper.isSet st k then (true, Viper.allSettings (Viper.setNil st k))
  else (false, file)

end Ox45

/-- C7: `set` followed by `get` returns the value just set, for every key
and value (the set is written to the file and a fresh invocation's `get`
resolves it).  But `unset` is broken for any key that is present in the
config file: `viper.Set(key, nil)` cannot shadow the file layer, so
`WriteConfig` persists the old value again — the command prints the
`Removed config key` success message while a following `get` still
returns `"7d"` instead of reporting not-found. -/
theorem config_set_get_roundtrip_unset_bug :
    (∀ (file : List (String × String)) (k v : String),
      configGetCmd (configSetCmd file k v) k = some v) ∧
    (configUnsetCmd [("default_expiry", "7d")] "default_expiry").1 = true ∧
    configGetCmd (configUnsetCmd [("default_expiry", "7d")] "default_expiry").2
      "default_expiry" = some "7d" ∧
    configGetCmd [] "default_expiry" = none := by
  refine ⟨?_, by decide, by decide, by decide⟩
  intro file k v
  have hfind : Viper.find (Viper.set (initState file) k v) k = some v := by
    simp [Viper.find, Viper.set, Viper.alistGet, initState]
  have hmem : k ∈ Viper.allKeys (Viper.set (initState file) k v) := by
    simp [Viper.allKeys, Viper.set, initState]
  show Viper.find (initState (configSetCmd file k v)) k = some v
  have hconfig : valuesGet (configSetCmd file k v) k = some v := by
    rw [configSetCmd, Viper.valuesGet_allSettings]
    simp [hmem, hfind]
  simp [Viper.find, initState, Viper.alistGet, hconfig]

namespace Ox45

/-! ## The `cmd/0x45` variant: a persistent pre-run hook on the root

`cmd/0x45/main.go` installs `PersistentPreRunE: validateAPIKey` on the
root command.  cobra runs the nearest defined `PersistentPreRunE` —
walking from the invoked command up — before the command's `RunE`, and
aborts on error.  No subcommand here defines its own, so the root's
check guards every runnable command, `config set`/`config get`
included.  `path` below is the command path (the chain of command
names; flags and positional arguments play no part in selecting the
hook). -/

namespace Cmd045

/-- A leaf subcommand (`config get`, `config set`). -/
structure Sub where
  name : String
  hasHook : Bool
  deriving Repr

/-- A first-level command. -/
structure Top where
  name : String
  hasHook : Bool
  runnable : Bool
  children : List Sub
  deriving Repr

/-- The root command. -/
structure Root where
  hasHook : Bool
  children : List Top
  deriving Repr

/-- The command tree `main` registers: only the root defines a
persistent pre-run hook; `config` is a bare parent with `get`/`set`
children; the rest are runnable leaves. -/
def tree : Root :=
  { hasHook := true
    children :=
      [ { name := "config", hasHook := false, runnable := false,
          children := [⟨"get", false⟩, ⟨"set", false⟩] },
        { name := "upload", hasHook := false, runnable := true, children := [] },
        { name := "shorten", hasHook := false, runnable := true, children := [] },
        { name := "list", hasHook := false, runnable := true, children := [] },
        { name := "delete", hasHook := false, runnable := true, children := [] } ] }

/-- Function `validateAPIKey` of `cmd/0x45/main.go`. -/
def validateAPIKey (apiKey : String) : Option String :=
  if apiKey = "" then
    some "API key not set. Run '0x45 config set api_key YOUR_API_KEY' to set it"
  else none

/-- What executing one invocation observably did. -/
inductive ExecResult where
  | ran (name : String)       -- the command's handler executed
  | hookError (msg : String)  -- the pre-run hook failed; the handler never ran
  | usage                     -- help shown, no handler executed
  deriving DecidableEq, Repr

/-- Run a resolved runnable command: the nearest applicable persistent
pre-run hook first, the handler only when it passes. -/
def runLeaf (apiKey name : String) (hookApplies : Bool) : ExecResult :=
  if hookApplies then
    match validateAPIKey apiKey with
    | some e => .hookError e
    | none => .ran name
  else .ran name

/-- cobra dispatch over this tree: resolve the command path, then run
with the hook inherited from the nearest ancestor that defines one
(here: always the root's). -/
def execute (apiKey : String) (path : List String) : ExecResult :=
  match path with
  | [] => .usage
  | [n] =>
    match tree.children.find? (fun c => c.name = n) with
    | none => .usage
    | some c =>
      if c.runnable then runLeaf apiKey n (c.hasHook || tree.hasHook) else .usage
  | [n, m] =>
    match tree.children.find? (fun c => c.name = n) with
    | none => .usage
    | some c =>
      match c.children.find? (fun s => s.name = m) with
      | none => .usage
      | some s => runLeaf apiKey m (s.hasHook || (c.hasHook || tree.hasHook))
  | _ => .usage

end Cmd045

end Ox45

/-- C10: with no API key configured, the root's `PersistentPreRunE` makes
every command of the `cmd/0x45` variant fail before its handler runs —
no command path ever reaches a handler; in particular `config set` and
`config get` fail with the API-key error, so `api_key` cannot be set
through this CLI when it is absent.  With a key configured, `config set`
runs normally. -/
theorem persistent_hook_blocks_every_command (path : List String) (name : String) :
    (Cmd045.execute "" path ≠ .ran name) ∧
    (Cmd045.execute "" ["config", "set"] =
      .hookError "API key not set. Run '0x45 config set api_key YOUR_API_KEY' to set it") ∧
    (Cmd045.execute "" ["config", "get"] =
      .hookError "API key not set. Run '0x45 config set api_key YOUR_API_KEY' to set it") ∧
    (Cmd045.execute "some-key" ["config", "set"] = .ran "set") := by
  refine ⟨?_, by decide, by decide, by decide⟩
  cases path with
  | nil => simp [Cmd045.execute]
  | cons n rest =>
    cases rest with
    | nil =>
      simp only [Cmd045.execute]
      cases hf : Cmd045.tree.children.find? (fun c => c.name = n) with
      | none => simp
      | some c =>
        simp only [Cmd045.tree] at hf ⊢
        split
        · simp [Cmd045.runLeaf, Cmd045.validateAPIKey]
        · simp
    | cons m rest2 =>
      cases rest2 with
      | nil =>
        simp only [Cmd045.execute]
        cases hf : Cmd045.tree.children.find? (fun c => c.name = n) with
        | none => simp
        | some c =>
          cases hs : c.children.find? (fun s => s.name = m) with
          | none => simp [hs]
          | some s => simp [hs, Cmd045.runLeaf, Cmd045.validateAPIKey, Cmd045.tree]
      | cons _ _ => simp [Cmd045.execute]




